import Mathlib

/-
Verification development for wrf_ens_tools/post/interp_analysis.py.

The Python module is shallowly embedded: numpy 2D arrays become
List (List _) values, datetime objects become integers counting hours
(only whole-hour timedelta arithmetic occurs in the module), missing
reflectivity samples (NaN) become Option values with none for NaN, and
fallible operations (indexing an empty list, shape-mismatched
elementwise operations) return Option with none modelling the raised
exception.
-/

set_option autoImplicit false

namespace InterpAnalysis

/-- Model of datetime.datetime: hours since an arbitrary epoch. The module
only ever adds whole-hour timedeltas and compares datetimes for equality,
so integer hour arithmetic is a faithful abstraction. -/
abbrev DateTime := ℤ

/-- Model of the Python builtin range(a, b) over integers:
the list a, a+1, ..., b-1 (empty when b is at most a). -/
def pyRange (a b : ℤ) : List ℤ :=
  (List.range (b - a).toNat).map (fun i => a + (i : ℤ))

/-- The window instants computed by reflectivity_to_eventgrid: in six-hour
mode the list comprehension is over for i in range(rtime-5, rtime), in
one-hour mode the single instant runinitdate + rtime. -/
def rdates (runinitdate : DateTime) (sixhr : Bool) (rtime : ℤ) : List DateTime :=
  if sixhr then
    (pyRange (rtime - 5) rtime).map (fun i => runinitdate + i)
  else
    [runinitdate + rtime]

/-! ## 2D grids -/

/-- A 2D numpy array, modelled as a list of rows. -/
abbrev Grid (α : Type) := List (List α)

/-- The shape of a 2D array: the list of row lengths (its length is the
number of rows). Two arrays broadcast trivially iff their dims agree. -/
def dims {α : Type} (g : Grid α) : List ℕ :=
  g.map List.length

/-- Element access g[i][j], returning none when out of range. -/
def cell {α : Type} (g : Grid α) (i j : ℕ) : Option α :=
  (g.get? i).bind (fun row => row.get? j)

/-- Model of np.zeros_like(lons, dtype=bool): an all-false array
of the same shape as the argument. -/
def zeros_like (lons : Grid ℚ) : Grid Bool :=
  lons.map (fun row => row.map (fun _ => false))

/-! ## Reflectivity event grid (reflectivity_to_eventgrid) -/

/-- One interpolated-GridRad netCDF file, as read by
reflectivity_to_eventgrid: the STARTDATE attribute already parsed to a
datetime (the Python code slices the YYYYMMDDHH string and rebuilds a
datetime), and the time-indexed XLONG and GridRad_Refl variables.
A reflectivity sample of none models NaN. -/
structure GRFile where
  STARTDATE : DateTime
  XLONG : List (Grid ℚ)
  GridRad_Refl : List (Grid (Option ℚ))

/-- Model of the numpy comparison refl > threshold on one sample:
NaN (none) compares false, otherwise the strict order on the value. -/
def exceeds (r : Option ℚ) (threshold : ℚ) : Bool :=
  match r with
  | some v => decide (threshold < v)
  | none => false

/-- Model of agg_refl_mask[refl_mask | agg_refl_mask] = True for
equal-shaped arrays: the elementwise OR of the accumulated mask with
the above-threshold mask of the current file. -/
def orMask (agg : Grid Bool) (refl : Grid (Option ℚ)) (threshold : ℚ) : Grid Bool :=
  List.zipWith (fun arow rrow =>
    List.zipWith (fun a r => a || exceeds r threshold) arow rrow) agg refl

/-- One iteration of the file loop in reflectivity_to_eventgrid: files
whose STARTDATE is not among the window instants are skipped; an
in-window file has its first reflectivity time entry read (none models
the IndexError were it absent) and OR-ed into the accumulator.  The
dims guard models numpy raising on a shape mismatch (broadcasting of
unequal shapes is not modelled; the module always stores equal-shaped
grids). -/
def egStep (threshold : ℚ) (rd : List DateTime) (agg : Grid Bool) (f : GRFile) :
    Option (Grid Bool) :=
  if f.STARTDATE ∈ rd then
    (f.GridRad_Refl.head?).bind (fun refl =>
      if dims refl = dims agg then some (orMask agg refl threshold) else none)
  else
    some agg

/-- The file loop of reflectivity_to_eventgrid. -/
def egFold (threshold : ℚ) (rd : List DateTime) (agg : Grid Bool) :
    List GRFile → Option (Grid Bool)
  | [] => some agg
  | f :: rest =>
    match egStep threshold rd agg f with
    | none => none
    | some agg' => egFold threshold rd agg' rest

/-- Model of reflectivity_to_eventgrid: reads the first file's first
XLONG time entry for the shape (interp_gridradfiles[0]; none models the
IndexError on an empty list), builds the window instants, then folds the
threshold mask over the files.  Returns the aggregated boolean grid. -/
def reflectivity_to_eventgrid (interp_gridradfiles : List GRFile)
    (runinitdate : DateTime) (sixhr : Bool) (rtime : ℤ) (threshold : ℚ) :
    Option (Grid Bool) :=
  (interp_gridradfiles.head?).bind fun f0 =>
    (f0.XLONG.head?).bind fun lons =>
      egFold threshold (rdates runinitdate sixhr rtime) (zeros_like lons)
        interp_gridradfiles

/-! ## RAP vertical-level lookup (interpRAPtoWRF) -/

/-- Model of np.where(xs == v)[0][0]: the first index of xs holding
exactly v, none when no entry equals v (modelling the IndexError raised
by indexing the empty match array). -/
def npWhereFirst (xs : List ℚ) (v : ℚ) : Option ℕ :=
  match xs with
  | [] => none
  | x :: rest => if x = v then some 0 else (npWhereFirst rest v).map Nat.succ

/-- The seven vertical-level indices interpRAPtoWRF designates. -/
structure RAPLevels where
  lev925 : ℕ
  lev850 : ℕ
  lev700 : ℕ
  lev500 : ℕ
  lev300 : ℕ
  lev2m : ℕ
  lev10m : ℕ

/-- Model of the vertical-level designation block of interpRAPtoWRF:
each level is located by exact equality against the isobaric (Pa) or
height-above-ground (m) coordinate values; none models the IndexError
raised when an equality match finds nothing. -/
def interpRAPtoWRF_levels (isobaric hgt_above_gnd hgt_above_gnd4 : List ℚ) :
    Option RAPLevels :=
  (npWhereFirst isobaric 92500).bind fun lev925 =>
  (npWhereFirst isobaric 85000).bind fun lev850 =>
  (npWhereFirst isobaric 70000).bind fun lev700 =>
  (npWhereFirst isobaric 50000).bind fun lev500 =>
  (npWhereFirst isobaric 30000).bind fun lev300 =>
  (npWhereFirst hgt_above_gnd 2).bind fun lev2m =>
  (npWhereFirst hgt_above_gnd4 10).bind fun lev10m =>
  some ⟨lev925, lev850, lev700, lev500, lev300, lev2m, lev10m⟩

/-! ## RAP output variable names (interpRAPtoWRF) -/

/-- The human-readable sensitivity-variable labels of interpRAPtoWRF,
in the order the variables are written. -/
def sensstringslist : List String :=
  ["300 hPa GPH", "500 hPa GPH", "700 hPa GPH", "850 hPa GPH", "300 hPa T",
    "500 hPa T", "700 hPa T", "850 hPa T", "925 hPa T", "300 hPa U-Wind",
    "500 hPa U-Wind", "700 hPa U-Wind", "850 hPa U-Wind", "925 hPa U-Wind",
    "300 hPa V-Wind", "500 hPa V-Wind", "700 hPa V-Wind", "850 hPa V-Wind",
    "925 hPa V-Wind", "SLP", "2m Temp", "2m Q", "2m Dewpt", "10m U-Wind",
    "10m V-Wind"]

/-- Model of the Python call s.replace(" ", "_"): for a single-character
pattern this is exactly a character map sending every space to an
underscore. -/
def pyReplaceSpace (s : String) : String :=
  ⟨s.data.map (fun c => if c = ' ' then '_' else c)⟩

/-- The variables created in the interpolated-RAP output file, in creation
order: XLAT and XLONG copied from the reference grid, then one variable
per label with every space replaced by an underscore
(sensstringslist[i].replace). -/
def interpnc_varnames : List String :=
  ["XLAT", "XLONG"] ++ sensstringslist.map pyReplaceSpace

/-- The name of the one output file interpRAPtoWRF writes for a given
date/time (format string RAP_interp_to_WRF_{}{}{}{}.nc). -/
def interpRAPtoWRF_outfile (yr mo day hr : String) : String :=
  "RAP_interp_to_WRF_" ++ yr ++ mo ++ day ++ hr ++ ".nc"

/-! ## Response-box bounds and plot extent (plot_interp_refl_rbox) -/

/-- Model of the Python slice xs[a:b] for 0 <= a <= b. -/
def pySlice {α : Type} (xs : List α) (a b : ℕ) : List α :=
  (xs.drop a).take (b - a)

/-- Model of rbox_bounds = esensin[4:8]: the four response-box bounding
coordinates read from zero-indexed rows 4 through 7 of the response-box
definition file. -/
def rbox_bounds (esensin : List ℚ) : List ℚ :=
  pySlice esensin 4 8

/-- Model of ax.set_extent([llon-10.0, ulon+10.0, llat-5.0, ulat+5.0]):
the response box widened by 10 degrees of longitude on each side and
5 degrees of latitude on each side. -/
def plotExtent (llon ulon llat ulat : ℚ) : List ℚ :=
  [llon - 10, ulon + 10, llat - 5, ulat + 5]

/-- The map extent plot_interp_refl_rbox renders: unpack the four bounds
(llon, ulon, llat, ulat) from the sliced rows (none models the unpacking
error when fewer than four rows are present) and widen. -/
def plot_interp_refl_rbox_extent (esensin : List ℚ) : Option (List ℚ) :=
  match rbox_bounds esensin with
  | [llon, ulon, llat, ulat] => some (plotExtent llon ulon llat ulat)
  | _ => none

/-! ## GridRad output file lifecycle (horiz_interp_and_store_gridrad) -/

/-- The interpolated-GridRad output file contents: the file-level
STARTDATE attribute and the four time-indexed variables. -/
structure GROut where
  STARTDATE : DateTime
  XLAT : List (Grid ℚ)
  XLONG : List (Grid ℚ)
  GridRad_Refl : List (Grid ℚ)
  zlev : List ℤ

/-- Model of assigning index n of a netCDF variable along the unbounded
Time dimension: overwrite when n is an existing index, append when n is
the next fresh index (n greater than the current length, which would
leave fill-value gaps, never occurs in this module and is modelled as
none). -/
def ncSet {α : Type} (l : List α) (n : ℕ) (x : α) : Option (List α) :=
  if n < l.length then some (l.set n x)
  else if n = l.length then some (l ++ [x])
  else none

/-- Model of the storage section of horiz_interp_and_store_gridrad
(the interpolated field interp_refl is the bilinear_interp result; the
interpolation itself is modelled separately by bilinear_interp below).
prev is the current contents of out_file, none when the file does not
exist (the os.path.exists branch).  In write mode the file is created
with the new entry first; in append mode n = len(refl) and the new entry
is assigned at index n of each variable.  STARTDATE is assigned the
current source datehour in both modes. -/
def horiz_interp_and_store_gridrad (prev : Option GROut) (datehour : DateTime)
    (lats lons interp_refl : Grid ℚ) (zlev : ℤ) : Option GROut :=
  match prev with
  | none =>
    some { STARTDATE := datehour, XLAT := [lats], XLONG := [lons],
           GridRad_Refl := [interp_refl], zlev := [zlev] }
  | some st =>
    (ncSet st.GridRad_Refl st.GridRad_Refl.length interp_refl).bind fun refl' =>
    (ncSet st.XLONG st.GridRad_Refl.length lons).bind fun xlong' =>
    (ncSet st.XLAT st.GridRad_Refl.length lats).bind fun xlat' =>
    (ncSet st.zlev st.GridRad_Refl.length zlev).bind fun zlev' =>
    some { STARTDATE := datehour, XLAT := xlat', XLONG := xlong',
           GridRad_Refl := refl', zlev := zlev' }

/-! ## Bilinear interpolation (bilinear_interp)

scipy.interpolate.LinearNDInterpolator is external library code; it is
modelled here by its documented semantics: a piecewise-linear
interpolant over a Delaunay triangulation of the source points,
returning fill_value outside the triangulated region.  The
triangulation itself is computed inside scipy, so it appears as a
parameter constrained to cover exactly the convex hull of the points
(which a Delaunay triangulation does). -/

/-- A point of the plane; the module zips coordinates as (y, x). -/
abbrev Pt := ℚ × ℚ

/-- Twice the signed area of the triangle a b c. -/
def det2 (a b c : Pt) : ℚ :=
  (b.1 - a.1) * (c.2 - a.2) - (c.1 - a.1) * (b.2 - a.2)

/-- Whether q lies in the closed triangle p0 p1 p2 (degenerate triangles
contain nothing): all three vertex subdeterminants carry the sign of the
orientation determinant. -/
def triContains (p0 p1 p2 q : Pt) : Bool :=
  let d := det2 p0 p1 p2
  let s0 := det2 q p1 p2
  let s1 := det2 p0 q p2
  let s2 := det2 p0 p1 q
  if 0 < d then decide (0 ≤ s0) && decide (0 ≤ s1) && decide (0 ≤ s2)
  else if d < 0 then decide (s0 ≤ 0) && decide (s1 ≤ 0) && decide (s2 ≤ 0)
  else false

/-- Barycentric linear interpolation of the vertex values z0 z1 z2 of
triangle p0 p1 p2 at the point q. -/
def triEval (p0 p1 p2 : Pt) (z0 z1 z2 : ℚ) (q : Pt) : ℚ :=
  (det2 q p1 p2 * z0 + det2 p0 q p2 * z1 + det2 p0 p1 q * z2) / det2 p0 p1 p2

/-- Model of scipy.interpolate.LinearNDInterpolator: the source points,
their co-located values, the triangulation as index triples into the
points, and the fill value used outside the triangulated region. -/
structure LinearNDInterpolator where
  points : List Pt
  values : List ℚ
  simplices : List (ℕ × ℕ × ℕ)
  fill_value : ℚ

/-- Vertex i of the interpolant's point cloud. -/
def vertex (itp : LinearNDInterpolator) (i : ℕ) : Pt :=
  itp.points.getD i (0, 0)

/-- Value co-located with vertex i. -/
def vertexValue (itp : LinearNDInterpolator) (i : ℕ) : ℚ :=
  itp.values.getD i 0

/-- Whether the simplex t of the triangulation contains q. -/
def simplexContains (itp : LinearNDInterpolator) (t : ℕ × ℕ × ℕ) (q : Pt) : Bool :=
  triContains (vertex itp t.1) (vertex itp t.2.1) (vertex itp t.2.2) q

/-- The linear interpolation of the vertex values of simplex t at q. -/
def simplexEval (itp : LinearNDInterpolator) (t : ℕ × ℕ × ℕ) (q : Pt) : ℚ :=
  triEval (vertex itp t.1) (vertex itp t.2.1) (vertex itp t.2.2)
    (vertexValue itp t.1) (vertexValue itp t.2.1) (vertexValue itp t.2.2) q

/-- Evaluation of the interpolant at one query point: linear
interpolation inside the simplex containing the point, fill_value when
no simplex contains it. -/
def LinearNDInterpolator.eval (itp : LinearNDInterpolator) (q : Pt) : ℚ :=
  match itp.simplices.find? (fun t => simplexContains itp t q) with
  | some t => simplexEval itp t q
  | none => itp.fill_value

/-- The affine combination of the points of pts with the weights of w. -/
def affComb (w : List ℚ) (pts : List Pt) : Pt :=
  (List.zip w pts).foldl
    (fun acc wp => (acc.1 + wp.1 * wp.2.1, acc.2 + wp.1 * wp.2.2)) (0, 0)

/-- Membership of q in the convex hull of the finite point set pts:
q is a nonnegative affine combination of the points. -/
def inHull (pts : List Pt) (q : Pt) : Prop :=
  ∃ w : List ℚ, w.length = pts.length ∧ (∀ x ∈ w, 0 ≤ x) ∧ w.sum = 1 ∧
    affComb w pts = q

/-- The triangulation of the interpolant covers exactly the convex hull
of its points: a query point lies in some simplex iff it lies in the
hull.  This is the guarantee scipy's Delaunay triangulation provides. -/
def covers (itp : LinearNDInterpolator) : Prop :=
  ∀ q : Pt, (∃ t ∈ itp.simplices, simplexContains itp t q = true) ↔
    inHull itp.points q

/-- The interpolant bilinear_interp constructs: coords_from pairs the
flattened y and x source coordinates (y first), Z is the flattened
source values, and the fill value is the literal 9e9. -/
def srcInterp (tris : List (ℕ × ℕ × ℕ)) (grid1x grid1y z : Grid ℚ) :
    LinearNDInterpolator :=
  { points := List.zip grid1y.flatten grid1x.flatten,
    values := z.flatten,
    simplices := tris,
    fill_value := 9000000000 }

/-- Model of bilinear_interp: build the interpolant from the flattened
source grid and evaluate it at every (y, x) position of the target grid
(the tris parameter stands for the Delaunay triangulation scipy computes
internally from coords_from). -/
def bilinear_interp (tris : List (ℕ × ℕ × ℕ))
    (grid1x grid1y grid2x grid2y z : Grid ℚ) : Grid ℚ :=
  let interp := srcInterp tris grid1x grid1y z
  (List.zip grid2y grid2x).map (fun rr =>
    (List.zip rr.1 rr.2).map (fun yx => interp.eval (yx.1, yx.2)))

/-! ## General helper lemmas -/

theorem get?_zipWith_some {α β γ : Type} (f : α → β → γ) {a : List α}
    {b : List β} {i : ℕ} {x : α} {y : β}
    (ha : a.get? i = some x) (hb : b.get? i = some y) :
    (List.zipWith f a b).get? i = some (f x y) := by
  induction a generalizing b i with
  | nil => simp at ha
  | cons z zs ih =>
    cases b with
    | nil => simp at hb
    | cons w ws =>
      cases i with
      | zero =>
        simp only [List.get?] at ha hb
        injection ha with ha; injection hb with hb
        subst ha; subst hb; rfl
      | succ n =>
        simp only [List.get?] at ha hb ⊢
        exact ih ha hb

theorem get?_zipWith_inv {α β γ : Type} (f : α → β → γ) {a : List α}
    {b : List β} {i : ℕ} {z : γ}
    (h : (List.zipWith f a b).get? i = some z) :
    ∃ x y, a.get? i = some x ∧ b.get? i = some y ∧ z = f x y := by
  induction a generalizing b i with
  | nil => simp at h
  | cons u us ih =>
    cases b with
    | nil => simp at h
    | cons v vs =>
      cases i with
      | zero =>
        simp only [List.zipWith, List.get?] at h
        injection h with h
        exact ⟨u, v, rfl, rfl, h.symm⟩
      | succ n =>
        simp only [List.zipWith, List.get?] at h ⊢
        exact ih h

theorem cell_eq_some {α : Type} {g : Grid α} {i j : ℕ} {x : α} :
    cell g i j = some x ↔
      ∃ row, g.get? i = some row ∧ row.get? j = some x := by
  simp [cell, Option.bind_eq_some]

theorem cell_isSome_of_dims {α β : Type} {a : Grid α} {b : Grid β}
    (h : dims b = dims a) {i j : ℕ} {x : β} (hb : cell b i j = some x) :
    ∃ y, cell a i j = some y := by
  rcases cell_eq_some.mp hb with ⟨brow, hbi, hbj⟩
  have hmap : (b.get? i).map List.length = (a.get? i).map List.length := by
    have := congrArg (fun l => l.get? i) h
    simpa [dims, List.get?_map] using this
  rw [hbi] at hmap
  rcases Option.map_eq_some'.mp hmap.symm with ⟨arow, hai, hlen⟩
  have hj : j < brow.length := List.get?_eq_some.mp hbj |>.choose
  have hj' : j < arow.length := by rw [hlen]; exact hj
  rcases List.get?_eq_some.mpr ⟨hj', rfl⟩ with hgj
  exact ⟨arow.get ⟨j, hj'⟩, cell_eq_some.mpr ⟨arow, hai, hgj⟩⟩

/-! ## Event-grid lemmas -/

theorem dims_zeros_like (lons : Grid ℚ) : dims (zeros_like lons) = dims lons := by
  simp [dims, zeros_like]

theorem cell_zeros_like {lons : Grid ℚ} {i j : ℕ} {b : Bool}
    (h : cell (zeros_like lons) i j = some b) : b = false := by
  rcases cell_eq_some.mp h with ⟨row, hi, hj⟩
  simp only [zeros_like, List.get?_map] at hi
  rcases Option.map_eq_some'.mp hi with ⟨orow, _, hrow⟩
  subst hrow
  simp only [List.get?_map] at hj
  rcases Option.map_eq_some'.mp hj with ⟨_, _, hb⟩
  exact hb.symm

theorem cell_orMask_some {agg : Grid Bool} {refl : Grid (Option ℚ)} {t : ℚ}
    {i j : ℕ} {b : Bool} {r : Option ℚ}
    (ha : cell agg i j = some b) (hr : cell refl i j = some r) :
    cell (orMask agg refl t) i j = some (b || exceeds r t) := by
  rcases cell_eq_some.mp ha with ⟨arow, hai, haj⟩
  rcases cell_eq_some.mp hr with ⟨rrow, hri, hrj⟩
  refine cell_eq_some.mpr ⟨_, get?_zipWith_some _ hai hri, ?_⟩
  exact get?_zipWith_some _ haj hrj

theorem cell_orMask_inv {agg : Grid Bool} {refl : Grid (Option ℚ)} {t : ℚ}
    {i j : ℕ} {z : Bool}
    (h : cell (orMask agg refl t) i j = some z) :
    ∃ b r, cell agg i j = some b ∧ cell refl i j = some r ∧
      z = (b || exceeds r t) := by
  rcases cell_eq_some.mp h with ⟨row, hi, hj⟩
  rcases get?_zipWith_inv _ hi with ⟨arow, rrow, hai, hri, hrow⟩
  subst hrow
  rcases get?_zipWith_inv _ hj with ⟨b, r, haj, hrj, hz⟩
  exact ⟨b, r, cell_eq_some.mpr ⟨arow, hai, haj⟩,
    cell_eq_some.mpr ⟨rrow, hri, hrj⟩, hz⟩

theorem dims_orMask {agg : Grid Bool} {refl : Grid (Option ℚ)} {t : ℚ}
    (h : dims refl = dims agg) : dims (orMask agg refl t) = dims agg := by
  induction agg generalizing refl with
  | nil => simp [orMask]
  | cons arow aggt ih =>
    cases refl with
    | nil => simp [dims] at h
    | cons rrow reflt =>
      simp only [dims, List.map_cons, List.cons.injEq] at h
      simp only [orMask, List.zipWith_cons_cons, dims, List.map_cons,
        List.cons.injEq]
      exact ⟨by simp [h.1], by simpa [dims, orMask] using ih h.2⟩

theorem egStep_skip {t : ℚ} {rd : List DateTime} {agg : Grid Bool} {f : GRFile}
    (h : f.STARTDATE ∉ rd) : egStep t rd agg f = some agg := by
  simp [egStep, h]

theorem egStep_some_cases {t : ℚ} {rd : List DateTime} {agg agg' : Grid Bool}
    {f : GRFile} (h : egStep t rd agg f = some agg') :
    agg' = agg ∨
      ∃ rf, f.STARTDATE ∈ rd ∧ f.GridRad_Refl.head? = some rf ∧
        dims rf = dims agg ∧ agg' = orMask agg rf t := by
  unfold egStep at h
  by_cases hin : f.STARTDATE ∈ rd
  · rw [if_pos hin] at h
    rcases hh : f.GridRad_Refl.head? with _ | rf <;> rw [hh] at h
    · simp at h
    · simp only [Option.some_bind] at h
      by_cases hd : dims rf = dims agg
      · rw [if_pos hd] at h
        injection h with h
        exact Or.inr ⟨rf, hin, rfl, hd, h.symm⟩
      · rw [if_neg hd] at h; simp at h
  · rw [if_neg hin] at h
    injection h with h
    exact Or.inl h.symm

theorem egStep_dims {t : ℚ} {rd : List DateTime} {agg agg' : Grid Bool}
    {f : GRFile} (h : egStep t rd agg f = some agg') :
    dims agg' = dims agg := by
  rcases egStep_some_cases h with h' | ⟨refl, _, _, hd, h'⟩
  · rw [h']
  · rw [h']; exact dims_orMask hd

theorem egStep_mono {t : ℚ} {rd : List DateTime} {agg agg' : Grid Bool}
    {f : GRFile} {i j : ℕ} (h : egStep t rd agg f = some agg')
    (hc : cell agg i j = some true) : cell agg' i j = some true := by
  rcases egStep_some_cases h with h' | ⟨refl, _, _, hd, h'⟩
  · rw [h']; exact hc
  · rcases cell_isSome_of_dims (by simpa [dims_orMask] using hd.symm) hc
      with ⟨r, hr⟩
    rw [h', cell_orMask_some hc hr]
    simp

theorem egStep_hit {t : ℚ} {rd : List DateTime} {agg agg' : Grid Bool}
    {f : GRFile} {refl : Grid (Option ℚ)} {r : Option ℚ} {i j : ℕ}
    (hin : f.STARTDATE ∈ rd) (hrefl : f.GridRad_Refl.head? = some refl)
    (hcell : cell refl i j = some r) (hex : exceeds r t = true)
    (h : egStep t rd agg f = some agg') : cell agg' i j = some true := by
  have hguard : dims refl = dims agg ∧ agg' = orMask agg refl t := by
    unfold egStep at h
    rw [if_pos hin, hrefl] at h
    simp only [Option.some_bind] at h
    by_cases hd : dims refl = dims agg
    · rw [if_pos hd] at h
      injection h with h
      exact ⟨hd, h.symm⟩
    · rw [if_neg hd] at h; simp at h
  rcases cell_isSome_of_dims hguard.1 hcell with ⟨b, hb⟩
  rw [hguard.2, cell_orMask_some hb hcell, hex]
  simp

theorem egFold_cons (t : ℚ) (rd : List DateTime) (agg : Grid Bool)
    (f : GRFile) (rest : List GRFile) :
    egFold t rd agg (f :: rest) =
      (egStep t rd agg f).bind (fun agg' => egFold t rd agg' rest) := by
  cases hs : egStep t rd agg f <;> simp [egFold, hs]

theorem egFold_dims {t : ℚ} {rd : List DateTime} {agg g : Grid Bool}
    {files : List GRFile} (h : egFold t rd agg files = some g) :
    dims g = dims agg := by
  induction files generalizing agg with
  | nil => injection h with h; rw [h]
  | cons f rest ih =>
    rw [egFold_cons] at h
    rcases hs : egStep t rd agg f with _ | agg' <;> rw [hs] at h
    · simp at h
    · simp only [Option.some_bind] at h
      exact (ih h).trans (egStep_dims hs)

theorem egFold_mono {t : ℚ} {rd : List DateTime} {agg g : Grid Bool}
    {files : List GRFile} {i j : ℕ} (h : egFold t rd agg files = some g)
    (hc : cell agg i j = some true) : cell g i j = some true := by
  induction files generalizing agg with
  | nil => injection h with h; rw [← h]; exact hc
  | cons f rest ih =>
    rw [egFold_cons] at h
    rcases hs : egStep t rd agg f with _ | agg' <;> rw [hs] at h
    · simp at h
    · simp only [Option.some_bind] at h
      exact ih h (egStep_mono hs hc)

theorem egFold_append {t : ℚ} {rd : List DateTime} (agg : Grid Bool)
    (l1 l2 : List GRFile) :
    egFold t rd agg (l1 ++ l2) =
      (egFold t rd agg l1).bind (fun m => egFold t rd m l2) := by
  induction l1 generalizing agg with
  | nil => rfl
  | cons f rest ih =>
    simp only [List.cons_append, egFold_cons]
    rcases hs : egStep t rd agg f with _ | agg'
    · rfl
    · simp only [Option.some_bind]
      exact ih agg'

theorem egFold_skip {t : ℚ} {rd : List DateTime} {agg : Grid Bool}
    {files : List GRFile} (h : ∀ f ∈ files, f.STARTDATE ∉ rd) :
    egFold t rd agg files = some agg := by
  induction files with
  | nil => rfl
  | cons f rest ih =>
    rw [egFold_cons, egStep_skip (h f (List.mem_cons_self f rest))]
    simp only [Option.some_bind]
    exact ih (fun f' hf' => h f' (List.mem_cons_of_mem f hf'))

theorem egFold_complete {t : ℚ} {rd : List DateTime} {agg g : Grid Bool}
    {files : List GRFile} {i j : ℕ} (h : egFold t rd agg files = some g)
    (hc : cell g i j = some true) :
    cell agg i j = some true ∨
      ∃ f ∈ files, f.STARTDATE ∈ rd ∧
        ∃ refl r, f.GridRad_Refl.head? = some refl ∧
          cell refl i j = some r ∧ exceeds r t = true := by
  induction files generalizing agg with
  | nil => injection h with h; subst h; exact Or.inl hc
  | cons f rest ih =>
    rw [egFold_cons] at h
    rcases hs : egStep t rd agg f with _ | agg' <;> rw [hs] at h
    · simp at h
    · simp only [Option.some_bind] at h
      rcases ih h with hcell | ⟨f', hf', hrest⟩
      · rcases egStep_some_cases hs with h' | ⟨refl, hin, hrefl, hd, h'⟩
        · subst h'; exact Or.inl hcell
        · subst h'
          rcases cell_orMask_inv hcell with ⟨b, r, hb, hr, hbr⟩
          rcases Bool.or_eq_true_iff.mp hbr.symm with hb' | hex
          · exact Or.inl (hb' ▸ hb)
          · exact Or.inr ⟨f, List.mem_cons_self f rest, hin, refl, r, hrefl,
              hr, hex⟩
      · exact Or.inr ⟨f', List.mem_cons_of_mem f hf', hrest⟩

theorem reflectivity_to_eventgrid_eq {files : List GRFile} {f0 : GRFile}
    {lons : Grid ℚ} {init : DateTime} {sixhr : Bool} {rtime : ℤ}
    {threshold : ℚ} (h0 : files.head? = some f0)
    (hx : f0.XLONG.head? = some lons) :
    reflectivity_to_eventgrid files init sixhr rtime threshold =
      egFold threshold (rdates init sixhr rtime) (zeros_like lons) files := by
  unfold reflectivity_to_eventgrid
  rw [h0, Option.some_bind, hx, Option.some_bind]

/-! ## Claim theorems -/

/-- C1 (amended): in six-hour mode the window instants matched against
file start times are the 5 hourly instants from init + (rtime - 5) to
init + (rtime - 1), i.e. ending one hour BEFORE init + rtime; for
init = 2020-05-01T00:00 (hour 0) and rtime = 6 they are hours 1..5
(01:00 through 05:00).  In one-hour mode the single instant
init + rtime. -/
theorem c1_window_instants (init rtime : ℤ) :
    rdates init true rtime =
      [init + (rtime - 5), init + (rtime - 4), init + (rtime - 3),
        init + (rtime - 2), init + (rtime - 1)] ∧
    (∀ r : ℤ, rdates init false r = [init + r]) ∧
    rdates 0 true 6 = [1, 2, 3, 4, 5] := by
  refine ⟨?_, fun r => rfl, by decide⟩
  have h5 : (rtime - (rtime - 5)).toNat = 5 := by omega
  simp only [rdates, pyRange, if_true, h5]
  have hr : List.range 5 = [0, 1, 2, 3, 4] := by decide
  simp only [hr, List.map_cons, List.map_nil, List.cons.injEq, and_true]
  norm_num
  refine ⟨by ring, by ring, by ring, by ring⟩

/-- C1 counterexample: for init = hour 0 and rtime = 6 the claimed
instant set 02:00..06:00 ending at init + 6 is wrong: the instant
init + 6 is not in the window, and the window is 01:00..05:00, not
02:00..06:00. -/
theorem c1_counterexample :
    ((0 : ℤ) + 6) ∉ rdates 0 true 6 ∧ rdates 0 true 6 ≠ [2, 3, 4, 5, 6] := by
  decide

/-- C3: the event-grid aggregation is a monotonic logical OR.
(a) Extending the processed file list never unmarks a cell: if the run
on a prefix yields a grid with a cell true, the run on the extended
list yields that cell true.  (b) Every cell marked by an in-window
above-threshold sample of any file in the list is true in the returned
grid. -/
theorem c3_eventgrid_monotone_or (init : DateTime) (sixhr : Bool) (rtime : ℤ)
    (threshold : ℚ) :
    (∀ (l1 l2 : List GRFile) (g1 g : Grid Bool) (i j : ℕ),
      reflectivity_to_eventgrid l1 init sixhr rtime threshold = some g1 →
      reflectivity_to_eventgrid (l1 ++ l2) init sixhr rtime threshold = some g →
      cell g1 i j = some true → cell g i j = some true) ∧
    (∀ (files : List GRFile) (g : Grid Bool) (f : GRFile)
        (rf : Grid (Option ℚ)) (v : ℚ) (i j : ℕ),
      reflectivity_to_eventgrid files init sixhr rtime threshold = some g →
      f ∈ files → f.STARTDATE ∈ rdates init sixhr rtime →
      f.GridRad_Refl.head? = some rf →
      cell rf i j = some (some v) → threshold < v →
      cell g i j = some true) := by
  constructor
  · intro l1 l2 g1 g i j h1 h hc
    rcases l1 with _ | ⟨f0, l1'⟩
    · simp [reflectivity_to_eventgrid] at h1
    · rcases hx : f0.XLONG.head? with _ | lons
      · rw [reflectivity_to_eventgrid] at h1
        rw [List.head?_cons, Option.some_bind, hx] at h1
        simp at h1
      · rw [reflectivity_to_eventgrid_eq (List.head?_cons) hx] at h1
        rw [List.cons_append] at h
        rw [reflectivity_to_eventgrid_eq (List.head?_cons) hx] at h
        rw [← List.cons_append, egFold_append] at h
        rw [h1, Option.some_bind] at h
        exact egFold_mono h hc
  · intro files g f rf v i j h hf hin hrf hcell hlt
    rcases files with _ | ⟨f0, rest⟩
    · simp at hf
    · rcases hx : f0.XLONG.head? with _ | lons
      · rw [reflectivity_to_eventgrid] at h
        rw [List.head?_cons, Option.some_bind, hx] at h
        simp at h
      · rw [reflectivity_to_eventgrid_eq (List.head?_cons) hx] at h
        rcases List.append_of_mem hf with ⟨s, u, hsu⟩
        rw [hsu] at h
        rw [egFold_append] at h
        rcases Option.bind_eq_some.mp h with ⟨m, _, h2⟩
        rw [egFold_cons] at h2
        rcases Option.bind_eq_some.mp h2 with ⟨m2, hstep, h3⟩
        have hm2 : cell m2 i j = some true :=
          egStep_hit hin hrf hcell (by simp [exceeds, hlt]) hstep
        exact egFold_mono h3 hm2

/-- C3 witness. -/
theorem c3_eventgrid_monotone_or_witness :
    cell ([[true]] : Grid Bool) 0 0 = some true := by
  refine (c3_eventgrid_monotone_or 0 true 6 30).2
    [⟨1, [[[0]]], [[[some 40]]]⟩] [[true]] ⟨1, [[[0]]], [[[some 40]]]⟩
    [[some 40]] 40 0 0 (by decide) (List.mem_singleton.mpr rfl) (by decide)
    rfl (by decide) (by decide)

/-- C4 counterexample: given zero input files the function does not
return an all-false grid; indexing interp_gridradfiles[0] for the grid
shape faults on the empty list (modelled as none). -/
theorem c4_counterexample :
    reflectivity_to_eventgrid [] 0 true 6 30 = none := rfl

/-- C4 (amended): for a NON-empty file list none of whose start times
match any window instant, every file is skipped and the returned grid
is the all-false grid shaped like the first file's XLONG first time
entry.  Given zero input files the function instead faults on
interp_gridradfiles[0]. -/
theorem c4_no_match_all_false (files : List GRFile) (init : DateTime)
    (sixhr : Bool) (rtime : ℤ) (threshold : ℚ) (f0 : GRFile) (lons : Grid ℚ)
    (h0 : files.head? = some f0) (hx : f0.XLONG.head? = some lons)
    (hmiss : ∀ f ∈ files, f.STARTDATE ∉ rdates init sixhr rtime) :
    reflectivity_to_eventgrid files init sixhr rtime threshold =
      some (zeros_like lons) ∧
    dims (zeros_like lons) = dims lons ∧
    (∀ i j b, cell (zeros_like lons) i j = some b → b = false) := by
  refine ⟨?_, dims_zeros_like lons, fun i j b hb => cell_zeros_like hb⟩
  rw [reflectivity_to_eventgrid_eq h0 hx]
  exact egFold_skip hmiss

/-- C4 witness. -/
theorem c4_no_match_all_false_witness :
    reflectivity_to_eventgrid [⟨99, [[[0]]], [[[none]]]⟩] 0 true 6 30 =
      some (zeros_like [[0]]) :=
  (c4_no_match_all_false [⟨99, [[[0]]], [[[none]]]⟩] 0 true 6 30
    ⟨99, [[[0]]], [[[none]]]⟩ [[0]] rfl rfl
    (by
      intro f hf
      rw [List.mem_singleton] at hf
      subst hf
      decide)).1

/-- C9: the returned boolean grid has exactly the shape of the XLONG
field (first time entry) of the first file in the list; no hypothesis
relates the first file's start time to the window, so the shape is
taken from the first file whether or not it is in-window. -/
theorem c9_shape_from_first_file (files : List GRFile) (init : DateTime)
    (sixhr : Bool) (rtime : ℤ) (threshold : ℚ) (f0 : GRFile) (lons : Grid ℚ)
    (g : Grid Bool) (h0 : files.head? = some f0)
    (hx : f0.XLONG.head? = some lons)
    (h : reflectivity_to_eventgrid files init sixhr rtime threshold = some g) :
    dims g = dims lons := by
  rw [reflectivity_to_eventgrid_eq h0 hx] at h
  exact (egFold_dims h).trans (dims_zeros_like lons)

/-- C9 witness (the single file is out of window and still fixes
the shape). -/
theorem c9_shape_from_first_file_witness :
    dims ([[false, false]] : Grid Bool) = dims ([[0, 0]] : Grid ℚ) :=
  c9_shape_from_first_file [⟨99, [[[0, 0]]], [[[none, none]]]⟩] 0 true 6 30
    ⟨99, [[[0, 0]]], [[[none, none]]]⟩ [[0, 0]] [[false, false]] rfl rfl
    (by decide)

/-- C10: the threshold comparison is strict and NaN never marks a hit:
if every in-window file's reflectivity sample at a cell is missing
(NaN, modelled none), exactly equal to the threshold, or out of range,
the returned grid does not hold true at that cell. -/
theorem c10_strict_threshold (files : List GRFile) (init : DateTime)
    (sixhr : Bool) (rtime : ℤ) (threshold : ℚ) (g : Grid Bool) (i j : ℕ)
    (h : reflectivity_to_eventgrid files init sixhr rtime threshold = some g)
    (hsamples : ∀ f ∈ files, f.STARTDATE ∈ rdates init sixhr rtime →
      ∀ rf, f.GridRad_Refl.head? = some rf →
        cell rf i j = none ∨ cell rf i j = some none ∨
          cell rf i j = some (some threshold)) :
    cell g i j ≠ some true := by
  intro hc
  rcases hfl : files.head? with _ | f0
  · rw [reflectivity_to_eventgrid, hfl] at h
    simp at h
  · rcases hx : f0.XLONG.head? with _ | lons
    · rw [reflectivity_to_eventgrid, hfl, Option.some_bind, hx] at h
      simp at h
    · rw [reflectivity_to_eventgrid_eq hfl hx] at h
      rcases egFold_complete h hc with hz | ⟨f, hf, hin, rf, r, hrf, hcr, hex⟩
      · exact absurd (cell_zeros_like hz) (by decide)
      · rcases hsamples f hf hin rf hrf with hnone | hnan | heq
        · rw [hcr] at hnone; exact Option.some_ne_none r hnone
        · rw [hcr] at hnan
          injection hnan with hr
          rw [hr] at hex
          simp [exceeds] at hex
        · rw [hcr] at heq
          injection heq with hr
          rw [hr] at hex
          simp [exceeds] at hex

/-- C10 witness (one in-window file whose sample equals the
threshold exactly). -/
theorem c10_strict_threshold_witness :
    cell ([[false]] : Grid Bool) 0 0 ≠ some true :=
  c10_strict_threshold [⟨1, [[[0]]], [[[some 30]]]⟩] 0 true 6 30 [[false]] 0 0
    (by decide)
    (by
      intro f hf hin rf hrf
      rw [List.mem_singleton] at hf
      subst hf
      injection hrf with hrf
      subst hrf
      right; right; rfl)

/-- C5: vertical levels are located by exact equality against the
source coordinate values: a successful lookup returns an index whose
coordinate entry equals the requested value exactly (never a nearest
level), the lookup fails precisely when no coordinate entry equals the
value, and any failed level lookup makes the whole designation fault
(none, modelling the IndexError) rather than return a partial result. -/
theorem c5_exact_level_match :
    (∀ (xs : List ℚ) (v : ℚ) (i : ℕ),
      npWhereFirst xs v = some i → xs.get? i = some v) ∧
    (∀ (xs : List ℚ) (v : ℚ), npWhereFirst xs v = none ↔ v ∉ xs) ∧
    (∀ isobaric hgt_above_gnd hgt_above_gnd4 : List ℚ,
      (92500 ∉ isobaric ∨ 85000 ∉ isobaric ∨ 70000 ∉ isobaric ∨
        50000 ∉ isobaric ∨ 30000 ∉ isobaric ∨ 2 ∉ hgt_above_gnd ∨
        10 ∉ hgt_above_gnd4) →
      interpRAPtoWRF_levels isobaric hgt_above_gnd hgt_above_gnd4 = none) := by
  have hsome : ∀ (xs : List ℚ) (v : ℚ) (i : ℕ),
      npWhereFirst xs v = some i → xs.get? i = some v := by
    intro xs v
    induction xs with
    | nil => intro i h; simp [npWhereFirst] at h
    | cons x rest ih =>
      intro i h
      simp only [npWhereFirst] at h
      by_cases hx : x = v
      · rw [if_pos hx] at h
        injection h with h
        subst h
        rw [hx]
        rfl
      · rw [if_neg hx] at h
        rcases Option.map_eq_some'.mp h with ⟨m, hm, hi⟩
        subst hi
        exact ih m hm
  have hnone : ∀ (xs : List ℚ) (v : ℚ), npWhereFirst xs v = none ↔ v ∉ xs := by
    intro xs v
    induction xs with
    | nil => simp [npWhereFirst]
    | cons x rest ih =>
      simp only [npWhereFirst]
      by_cases hx : x = v
      · rw [if_pos hx]
        simp [hx]
      · rw [if_neg hx]
        rw [Option.map_eq_none']
        rw [ih]
        simp only [List.mem_cons, not_or]
        constructor
        · intro h'
          exact ⟨fun hvx => hx hvx.symm, h'⟩
        · intro h'
          exact h'.2
  have haux : ∀ {α β : Type} (x : Option α),
      (x.bind fun _ => (none : Option β)) = none := by
    intro α β x
    cases x <;> rfl
  refine ⟨hsome, hnone, ?_⟩
  intro iso hgt hgt4 hmiss
  rcases hmiss with h | h | h | h | h | h | h <;>
    simp [interpRAPtoWRF_levels, (hnone _ _).mpr h, haux]

/-- C5 witness. -/
theorem c5_exact_level_match_witness :
    interpRAPtoWRF_levels [92500, 85000, 70000, 50000, 30000] [2] [] = none ∧
    ([50000, 92500] : List ℚ).get? 1 = some 92500 :=
  ⟨c5_exact_level_match.2.2 [92500, 85000, 70000, 50000, 30000] [2] []
      (by right; right; right; right; right; right; decide),
    c5_exact_level_match.1 [50000, 92500] 92500 1 (by decide)⟩

/-- C6: appending to an existing GridRad output file (all variables at
the same Time length) extends each of GridRad_Refl, XLAT, XLONG and
zlev by exactly one entry, leaves all previously stored entries at
earlier indices unchanged, stores the new interpolated entry at the
next time index, and overwrites the file-level STARTDATE attribute with
the current call's source start time. -/
theorem c6_append_lifecycle (st : GROut) (datehour : DateTime)
    (lats lons interp_refl : Grid ℚ) (zl : ℤ) (st' : GROut)
    (hlat : st.XLAT.length = st.GridRad_Refl.length)
    (hlon : st.XLONG.length = st.GridRad_Refl.length)
    (hz : st.zlev.length = st.GridRad_Refl.length)
    (h : horiz_interp_and_store_gridrad (some st) datehour lats lons
      interp_refl zl = some st') :
    st'.GridRad_Refl.length = st.GridRad_Refl.length + 1 ∧
    st'.XLAT.length = st.XLAT.length + 1 ∧
    st'.XLONG.length = st.XLONG.length + 1 ∧
    st'.zlev.length = st.zlev.length + 1 ∧
    st'.GridRad_Refl.take st.GridRad_Refl.length = st.GridRad_Refl ∧
    st'.XLAT.take st.XLAT.length = st.XLAT ∧
    st'.XLONG.take st.XLONG.length = st.XLONG ∧
    st'.zlev.take st.zlev.length = st.zlev ∧
    st'.GridRad_Refl.get? st.GridRad_Refl.length = some interp_refl ∧
    st'.zlev.get? st.GridRad_Refl.length = some zl ∧
    st'.STARTDATE = datehour := by
  unfold horiz_interp_and_store_gridrad ncSet at h
  simp only [hlat, hlon, hz, lt_irrefl, if_false, if_pos rfl,
    Option.some_bind] at h
  injection h with h
  subst h
  refine ⟨by simp, by simp [hlat], by simp [hlon], by simp [hz],
    List.take_left _ _, ?_, ?_, ?_, ?_, ?_, rfl⟩
  · conv_lhs => rw [hlat]
    exact hlat ▸ List.take_left _ _
  · conv_lhs => rw [hlon]
    exact hlon ▸ List.take_left _ _
  · conv_lhs => rw [hz]
    exact hz ▸ List.take_left _ _
  · exact List.get?_concat_length _ _
  · exact hz ▸ List.get?_concat_length _ _

/-- C6 witness. -/
theorem c6_append_lifecycle_witness :
    ((⟨5, [[[1]]] , [[[2]]], [[[3]]], [7, 9]⟩ : GROut).GridRad_Refl.length = 2) ∨
    ((⟨5, [[[1]], [[4]]], [[[2]], [[4]]], [[[3]], [[4]]], [7, 9]⟩ :
        GROut).STARTDATE = 5) := by
  have h := c6_append_lifecycle ⟨0, [[[1]]], [[[2]]], [[[3]]], [7]⟩ 5
    [[4]] [[4]] [[4]] 9
    ⟨5, [[[1]], [[4]]], [[[2]], [[4]]], [[[3]], [[4]]], [7, 9]⟩
    rfl rfl rfl rfl
  exact Or.inr h.2.2.2.2.2.2.2.2.2.2

/-- C7: for every date/time input, interpRAPtoWRF writes the single
output file RAP_interp_to_WRF_(date).nc whose created variables are
XLAT and XLONG followed by exactly 25 interpolated variables, each
named by its human-readable label with every space replaced by an
underscore. -/
theorem c7_output_variables (yr mo day hr : String) :
    interpRAPtoWRF_outfile yr mo day hr =
      "RAP_interp_to_WRF_" ++ yr ++ mo ++ day ++ hr ++ ".nc" ∧
    sensstringslist.length = 25 ∧
    interpnc_varnames.length = 27 ∧
    interpnc_varnames.take 2 = ["XLAT", "XLONG"] ∧
    interpnc_varnames.drop 2 = sensstringslist.map pyReplaceSpace ∧
    (interpnc_varnames.drop 2).length = 25 ∧
    interpnc_varnames =
      ["XLAT", "XLONG", "300_hPa_GPH", "500_hPa_GPH", "700_hPa_GPH",
        "850_hPa_GPH", "300_hPa_T", "500_hPa_T", "700_hPa_T", "850_hPa_T",
        "925_hPa_T", "300_hPa_U-Wind", "500_hPa_U-Wind", "700_hPa_U-Wind",
        "850_hPa_U-Wind", "925_hPa_U-Wind", "300_hPa_V-Wind",
        "500_hPa_V-Wind", "700_hPa_V-Wind", "850_hPa_V-Wind",
        "925_hPa_V-Wind", "SLP", "2m_Temp", "2m_Q", "2m_Dewpt",
        "10m_U-Wind", "10m_V-Wind"] ∧
    (interpnc_varnames.drop 2).all
      (fun s => s.data.all (fun c => decide (c ≠ ' '))) = true := by
  refine ⟨rfl, rfl, ?_, rfl, rfl, ?_, ?_, ?_⟩ <;> decide

/-- C8: the response-box bounds are read, in the order west (llon),
east (ulon), south (llat), north (ulat), from zero-indexed rows 4
through 7 of the response-box definition file, and the rendered map
extent is that box widened by exactly 10 degrees of longitude on each
side and 5 degrees of latitude on each side. -/
theorem c8_rbox_extent (pre : List ℚ) (w e s n : ℚ) (post : List ℚ)
    (hpre : pre.length = 4) :
    rbox_bounds (pre ++ [w, e, s, n] ++ post) = [w, e, s, n] ∧
    plot_interp_refl_rbox_extent (pre ++ [w, e, s, n] ++ post) =
      some [w - 10, e + 10, s - 5, n + 5] := by
  have hb : rbox_bounds (pre ++ [w, e, s, n] ++ post) = [w, e, s, n] := by
    rcases pre with _ | ⟨a, pre⟩
    · simp at hpre
    rcases pre with _ | ⟨b, pre⟩
    · simp at hpre
    rcases pre with _ | ⟨c, pre⟩
    · simp at hpre
    rcases pre with _ | ⟨d, pre⟩
    · simp at hpre
    rcases pre with _ | ⟨x, pre⟩
    · simp [rbox_bounds, pySlice]
    · simp at hpre
  refine ⟨hb, ?_⟩
  rw [plot_interp_refl_rbox_extent, hb]
  rfl

/-! ## Bilinear interpolation lemmas -/

theorem dims_map_zip {α : Type} (f : ℚ → ℚ → α) :
    ∀ (a b : Grid ℚ), dims b = dims a →
      dims ((List.zip a b).map (fun rr =>
        (List.zip rr.1 rr.2).map (fun yx => f yx.1 yx.2))) = dims a := by
  intro a
  induction a with
  | nil => intro b _; simp [List.zip, dims]
  | cons ra ta ih =>
    intro b h
    cases b with
    | nil => simp [dims] at h
    | cons rb tb =>
      simp only [dims, List.map_cons, List.cons.injEq] at h
      simp only [List.zip_cons_cons, List.map_cons, dims, List.cons.injEq]
      constructor
      · simp [List.length_zip, h.1]
      · simpa [dims] using ih tb h.2

theorem cell_bilinear_interp {tris : List (ℕ × ℕ × ℕ)}
    {g1x g1y z g2x g2y : Grid ℚ} {i j : ℕ} {y x : ℚ}
    (hy : cell g2y i j = some y) (hx : cell g2x i j = some x) :
    cell (bilinear_interp tris g1x g1y g2x g2y z) i j =
      some ((srcInterp tris g1x g1y z).eval (y, x)) := by
  rcases cell_eq_some.mp hy with ⟨ry, hyi, hyj⟩
  rcases cell_eq_some.mp hx with ⟨rx, hxi, hxj⟩
  apply cell_eq_some.mpr
  refine ⟨(List.zip ry rx).map (fun yx =>
    (srcInterp tris g1x g1y z).eval (yx.1, yx.2)), ?_, ?_⟩
  · simp only [bilinear_interp, List.zip]
    rw [List.get?_map, get?_zipWith_some Prod.mk hyi hxi]
    rfl
  · simp only [List.zip]
    rw [List.get?_map, get?_zipWith_some Prod.mk hyj hxj]
    rfl

theorem eval_of_inHull (itp : LinearNDInterpolator) (hcov : covers itp)
    (q : Pt) (hq : inHull itp.points q) :
    ∃ t ∈ itp.simplices, simplexContains itp t q = true ∧
      itp.eval q = simplexEval itp t q := by
  have hex : ∃ t ∈ itp.simplices, simplexContains itp t q = true :=
    (hcov q).mpr hq
  have hs : (itp.simplices.find? (fun t => simplexContains itp t q)).isSome := by
    rw [List.find?_isSome]
    simpa using hex
  rcases Option.isSome_iff_exists.mp hs with ⟨t, ht⟩
  have hmem : t ∈ itp.simplices := List.mem_of_find?_eq_some ht
  have hpt := List.find?_some ht
  refine ⟨t, hmem, by simpa using hpt, ?_⟩
  rw [LinearNDInterpolator.eval, ht]

theorem eval_of_notHull (itp : LinearNDInterpolator) (hcov : covers itp)
    (q : Pt) (hq : ¬ inHull itp.points q) :
    itp.eval q = itp.fill_value := by
  have hn : itp.simplices.find? (fun t => simplexContains itp t q) = none := by
    rw [List.find?_eq_none]
    intro t ht hc
    exact hq ((hcov q).mp ⟨t, ht, hc⟩)
  rw [LinearNDInterpolator.eval, hn]

/-! ## The 2x2 unit-square source grid of the C2 scenario -/

theorem sq_contains1 (u v : ℚ) :
    triContains (0, 0) (0, 1) (1, 1) (u, v) = true ↔
      (v ≤ 1 ∧ u ≤ v ∧ 0 ≤ u) := by
  have hd : det2 ((0, 0) : Pt) (0, 1) (1, 1) = -1 := by norm_num [det2]
  have hs0 : det2 ((u, v) : Pt) (0, 1) (1, 1) = v - 1 := by
    simp only [det2]; ring
  have hs1 : det2 ((0, 0) : Pt) (u, v) (1, 1) = u - v := by
    simp only [det2]; ring
  have hs2 : det2 ((0, 0) : Pt) (0, 1) (u, v) = -u := by
    simp only [det2]; ring
  simp only [triContains, hd, hs0, hs1, hs2]
  rw [if_neg (by norm_num), if_pos (by norm_num)]
  simp only [Bool.and_eq_true, decide_eq_true_eq]
  constructor
  · rintro ⟨⟨h1, h2⟩, h3⟩
    exact ⟨by linarith, by linarith, by linarith⟩
  · rintro ⟨h1, h2, h3⟩
    exact ⟨⟨by linarith, by linarith⟩, by linarith⟩

theorem sq_contains2 (u v : ℚ) :
    triContains (0, 0) (1, 1) (1, 0) (u, v) = true ↔
      (u ≤ 1 ∧ 0 ≤ v ∧ v ≤ u) := by
  have hd : det2 ((0, 0) : Pt) (1, 1) (1, 0) = -1 := by norm_num [det2]
  have hs0 : det2 ((u, v) : Pt) (1, 1) (1, 0) = u - 1 := by
    simp only [det2]; ring
  have hs1 : det2 ((0, 0) : Pt) (u, v) (1, 0) = -v := by
    simp only [det2]; ring
  have hs2 : det2 ((0, 0) : Pt) (1, 1) (u, v) = v - u := by
    simp only [det2]; ring
  simp only [triContains, hd, hs0, hs1, hs2]
  rw [if_neg (by norm_num), if_pos (by norm_num)]
  simp only [Bool.and_eq_true, decide_eq_true_eq]
  constructor
  · rintro ⟨⟨h1, h2⟩, h3⟩
    exact ⟨by linarith, by linarith, by linarith⟩
  · rintro ⟨h1, h2, h3⟩
    exact ⟨⟨by linarith, by linarith⟩, by linarith⟩

theorem sq_inHull (u v : ℚ) :
    inHull [(0, 0), (0, 1), (1, 0), (1, 1)] (u, v) ↔
      0 ≤ u ∧ u ≤ 1 ∧ 0 ≤ v ∧ v ≤ 1 := by
  constructor
  · rintro ⟨w, hlen, hnn, hsum, hcomb⟩
    rcases w with _ | ⟨w0, w⟩
    · simp at hlen
    rcases w with _ | ⟨w1, w⟩
    · simp at hlen
    rcases w with _ | ⟨w2, w⟩
    · simp at hlen
    rcases w with _ | ⟨w3, w⟩
    · simp at hlen
    rcases w with _ | ⟨w4, w⟩
    swap
    · simp at hlen
    have h0 : (0 : ℚ) ≤ w0 := hnn w0 (by simp)
    have h1 : (0 : ℚ) ≤ w1 := hnn w1 (by simp)
    have h2 : (0 : ℚ) ≤ w2 := hnn w2 (by simp)
    have h3 : (0 : ℚ) ≤ w3 := hnn w3 (by simp)
    simp only [List.sum_cons, List.sum_nil] at hsum
    simp only [affComb, List.zip, List.zipWith, List.foldl,
      Prod.mk.injEq] at hcomb
    obtain ⟨hu, hv⟩ := hcomb
    refine ⟨by linarith, by linarith, by linarith, by linarith⟩
  · rintro ⟨hu0, hu1, hv0, hv1⟩
    refine ⟨[(1 - u) * (1 - v), (1 - u) * v, u * (1 - v), u * v],
      by simp, ?_, ?_, ?_⟩
    · intro x hx
      simp only [List.mem_cons, List.not_mem_nil, or_false] at hx
      rcases hx with rfl | rfl | rfl | rfl
      · exact mul_nonneg (by linarith) (by linarith)
      · exact mul_nonneg (by linarith) hv0
      · exact mul_nonneg hu0 (by linarith)
      · exact mul_nonneg hu0 hv0
    · simp only [List.sum_cons, List.sum_nil]
      ring
    · simp only [affComb, List.zip, List.zipWith, List.foldl, Prod.mk.injEq]
      constructor <;> ring

theorem sq_covers :
    covers (srcInterp [(0, 1, 3), (0, 3, 2)] [[0, 1], [0, 1]]
      [[0, 0], [1, 1]] [[0, 1], [1, 2]]) := by
  intro q
  obtain ⟨u, v⟩ := q
  have hc1 : ∀ w : Pt, simplexContains (srcInterp [(0, 1, 3), (0, 3, 2)]
      [[0, 1], [0, 1]] [[0, 0], [1, 1]] [[0, 1], [1, 2]]) (0, 1, 3) w =
      triContains (0, 0) (0, 1) (1, 1) w := fun w => rfl
  have hc2 : ∀ w : Pt, simplexContains (srcInterp [(0, 1, 3), (0, 3, 2)]
      [[0, 1], [0, 1]] [[0, 0], [1, 1]] [[0, 1], [1, 2]]) (0, 3, 2) w =
      triContains (0, 0) (1, 1) (1, 0) w := fun w => rfl
  have hpts : (srcInterp [(0, 1, 3), (0, 3, 2)] [[0, 1], [0, 1]]
      [[0, 0], [1, 1]] [[0, 1], [1, 2]]).points =
      [(0, 0), (0, 1), (1, 0), (1, 1)] := rfl
  rw [hpts, sq_inHull]
  constructor
  · rintro ⟨t, ht, hc⟩
    simp only [srcInterp, List.mem_cons, List.not_mem_nil, or_false] at ht
    rcases ht with rfl | rfl
    · rw [hc1, sq_contains1] at hc
      exact ⟨hc.2.2, by linarith [hc.1, hc.2.1], by linarith [hc.2.1, hc.2.2],
        hc.1⟩
    · rw [hc2, sq_contains2] at hc
      exact ⟨by linarith [hc.2.1, hc.2.2], hc.1, hc.2.1,
        by linarith [hc.1, hc.2.2]⟩
  · rintro ⟨hu0, hu1, hv0, hv1⟩
    by_cases huv : u ≤ v
    · exact ⟨(0, 1, 3), by simp [srcInterp], (hc1 (u, v)).symm ▸
        (sq_contains1 u v).mpr ⟨hv1, huv, hu0⟩⟩
    · exact ⟨(0, 3, 2), by simp [srcInterp], (hc2 (u, v)).symm ▸
        (sq_contains2 u v).mpr ⟨hu1, hv0, le_of_not_le huv⟩⟩

theorem sq_eval_mid :
    (srcInterp [(0, 1, 3), (0, 3, 2)] [[0, 1], [0, 1]] [[0, 0], [1, 1]]
      [[0, 1], [1, 2]]).eval (1/2, 1/2) = 1 := by
  have h1 : simplexContains (srcInterp [(0, 1, 3), (0, 3, 2)] [[0, 1], [0, 1]]
      [[0, 0], [1, 1]] [[0, 1], [1, 2]]) (0, 1, 3) (1/2, 1/2) = true := by
    show triContains (0, 0) (0, 1) (1, 1) (1/2, 1/2) = true
    rw [sq_contains1]
    norm_num
  have hfind : List.find? (fun t => simplexContains (srcInterp
      [(0, 1, 3), (0, 3, 2)] [[0, 1], [0, 1]] [[0, 0], [1, 1]]
      [[0, 1], [1, 2]]) t (1/2, 1/2)) [(0, 1, 3), (0, 3, 2)] =
      some (0, 1, 3) := by
    simp only [List.find?, h1]
  rw [LinearNDInterpolator.eval]
  rw [show (srcInterp [(0, 1, 3), (0, 3, 2)] [[0, 1], [0, 1]] [[0, 0], [1, 1]]
    [[0, 1], [1, 2]]).simplices = [(0, 1, 3), (0, 3, 2)] from rfl]
  rw [hfind]
  show triEval (0, 0) (0, 1) (1, 1) 0 1 2 (1/2, 1/2) = 1
  norm_num [triEval, det2]

theorem sq_eval_out :
    (srcInterp [(0, 1, 3), (0, 3, 2)] [[0, 1], [0, 1]] [[0, 0], [1, 1]]
      [[0, 1], [1, 2]]).eval (2, 2) = 9000000000 := by
  have h1 : simplexContains (srcInterp [(0, 1, 3), (0, 3, 2)] [[0, 1], [0, 1]]
      [[0, 0], [1, 1]] [[0, 1], [1, 2]]) (0, 1, 3) (2, 2) = false := by
    show triContains (0, 0) (0, 1) (1, 1) (2, 2) = false
    rw [Bool.eq_false_iff, Ne, sq_contains1]
    norm_num
  have h2 : simplexContains (srcInterp [(0, 1, 3), (0, 3, 2)] [[0, 1], [0, 1]]
      [[0, 0], [1, 1]] [[0, 1], [1, 2]]) (0, 3, 2) (2, 2) = false := by
    show triContains (0, 0) (1, 1) (1, 0) (2, 2) = false
    rw [Bool.eq_false_iff, Ne, sq_contains2]
    norm_num
  have hfind : List.find? (fun t => simplexContains (srcInterp
      [(0, 1, 3), (0, 3, 2)] [[0, 1], [0, 1]] [[0, 0], [1, 1]]
      [[0, 1], [1, 2]]) t (2, 2)) [(0, 1, 3), (0, 3, 2)] = none := by
    simp only [List.find?, h1, h2]
  rw [LinearNDInterpolator.eval]
  rw [show (srcInterp [(0, 1, 3), (0, 3, 2)] [[0, 1], [0, 1]] [[0, 0], [1, 1]]
    [[0, 1], [1, 2]]).simplices = [(0, 1, 3), (0, 3, 2)] from rfl]
  rw [hfind]
  rfl

theorem sq_bilinear_eval :
    bilinear_interp [(0, 1, 3), (0, 3, 2)] [[0, 1], [0, 1]] [[0, 0], [1, 1]]
      [[1/2, 2]] [[1/2, 2]] [[0, 1], [1, 2]] = [[1, 9000000000]] := by
  simp only [bilinear_interp, List.zip, List.zipWith, List.map]
  rw [sq_eval_mid, sq_eval_out]

/-- C2: for every equal-shaped source grid and target grid, with the
triangulation scipy computes internally (any triangulation covering
exactly the convex hull of the source points), bilinear_interp returns
an array shaped like the target grid; each target cell whose (y, x)
location lies in the convex hull of the source points holds the
piecewise-linear interpolation of the source values over the simplex
containing it, and each cell outside the hull holds exactly the
sentinel 9e9.  In particular, for the 2x2 source grid at corners
(0,0),(1,0),(0,1),(1,1) with values [0,1,1,2] and its triangulation,
the target point (0.5, 0.5) yields 1 and the target point (2, 2)
yields 9e9. -/
theorem c2_bilinear_interp :
    (∀ (tris : List (ℕ × ℕ × ℕ)) (g1x g1y z g2x g2y : Grid ℚ),
      dims g1x = dims g1y → dims z = dims g1y → dims g2x = dims g2y →
      covers (srcInterp tris g1x g1y z) →
      dims (bilinear_interp tris g1x g1y g2x g2y z) = dims g2y ∧
      (∀ (i j : ℕ) (y x : ℚ), cell g2y i j = some y → cell g2x i j = some x →
        (inHull (srcInterp tris g1x g1y z).points (y, x) →
          ∃ t ∈ tris,
            simplexContains (srcInterp tris g1x g1y z) t (y, x) = true ∧
            cell (bilinear_interp tris g1x g1y g2x g2y z) i j =
              some (simplexEval (srcInterp tris g1x g1y z) t (y, x))) ∧
        (¬ inHull (srcInterp tris g1x g1y z).points (y, x) →
          cell (bilinear_interp tris g1x g1y g2x g2y z) i j =
            some 9000000000))) ∧
    bilinear_interp [(0, 1, 3), (0, 3, 2)] [[0, 1], [0, 1]] [[0, 0], [1, 1]]
      [[1/2, 2]] [[1/2, 2]] [[0, 1], [1, 2]] = [[1, 9000000000]] := by
  constructor
  · intro tris g1x g1y z g2x g2y _ _ h3 hcov
    constructor
    · show dims ((List.zip g2y g2x).map (fun rr => (List.zip rr.1 rr.2).map
        (fun yx => (srcInterp tris g1x g1y z).eval (yx.1, yx.2)))) = dims g2y
      exact dims_map_zip (fun a b => (srcInterp tris g1x g1y z).eval (a, b))
        g2y g2x h3
    · intro i j y x hy hx
      constructor
      · intro hin
        rcases eval_of_inHull _ hcov _ hin with ⟨t, ht, hc, hev⟩
        exact ⟨t, ht, hc, by rw [cell_bilinear_interp hy hx, hev]⟩
      · intro hout
        rw [cell_bilinear_interp hy hx, eval_of_notHull _ hcov _ hout]
        rfl
  · exact sq_bilinear_eval

/-- C2 witness. -/
theorem c2_bilinear_interp_witness :
    dims (bilinear_interp [(0, 1, 3), (0, 3, 2)] [[0, 1], [0, 1]]
      [[0, 0], [1, 1]] [[1/2, 2]] [[1/2, 2]] [[0, 1], [1, 2]]) =
      dims ([[1/2, 2]] : Grid ℚ) :=
  (c2_bilinear_interp.1 [(0, 1, 3), (0, 3, 2)] [[0, 1], [0, 1]]
    [[0, 0], [1, 1]] [[0, 1], [1, 2]] [[1/2, 2]] [[1/2, 2]]
    rfl rfl rfl sq_covers).1

/-- C8 witness. -/
theorem c8_rbox_extent_witness :
    rbox_bounds [0, 0, 0, 0, 1, 2, 3, 4] = [1, 2, 3, 4] ∧
    plot_interp_refl_rbox_extent [0, 0, 0, 0, 1, 2, 3, 4] =
      some [1 - 10, 2 + 10, 3 - 5, 4 + 5] := by
  have h := c8_rbox_extent [0, 0, 0, 0] 1 2 3 4 [] rfl
  simpa using h

end InterpAnalysis
